import Mathlib

/-!
Verification of `pandera/schema_statistics.py`.

A shallow embedding of the statistics-inference module: the bidirectional
check↔statistic registry (`parse_check_statistics`, `parse_checks`), the
array-level type resolver and statistics extractor, the aggregators over
dataframes, series and indexes, and the schema decomposers.

Python dictionaries are modelled as insertion-ordered association lists with
first-binding-wins lookup and update-in-place assignment. Values stored in
statistics mappings and carried by validation rules are modelled by `Value`:
integers (the numeric scalars of the rule contract), strings, NaN, and lists
of scalars (categorical level sets). Fallible code returns `Except`.
-/

namespace SchemaStatistics

/-- Scalar values: the category levels and elements that populate arrays and
level sets. -/
inductive Scalar where
  | int : Int → Scalar
  | str : String → Scalar
deriving DecidableEq, Repr

/-- Values stored in a statistics mapping or carried by a validation rule:
numeric scalars, strings, NaN (result of an empty reduction), and lists of
scalars (categorical level sets). -/
inductive Value where
  | int : Int → Value
  | str : String → Value
  | nan : Value
  | list : List Scalar → Value
deriving DecidableEq, Repr

/-- Validation rules (`Check` objects). The kind identity of a rule (its `name`
in the source) is the constructor; `other` stands for every rule kind that
is absent from the reverse registry. Each carries its single construction
parameter, which is also what its `statistics` view exposes
(`min_value` / `max_value` / `allowed_values`). -/
inductive Check where
  | greater_than_or_equal_to : Value → Check
  | less_than_or_equal_to : Value → Check
  | isin : Value → Check
  | other : String → Check
deriving DecidableEq, Repr

/-- A Python dictionary with string keys: an insertion-ordered association
list. -/
abbrev Dict := List (String × Value)

/-- Python dict lookup `d[k]` / `k in d`: the first binding for `k`. -/
def dget {α : Type} (d : List (String × α)) (k : String) : Option α :=
  match d with
  | [] => none
  | (k1, v) :: rest => if k1 = k then some v else dget rest k

/-- Python dict assignment `d[k] = v`: replace in place when the key is
present, append at the end otherwise. -/
def dinsert {α : Type} (d : List (String × α)) (k : String) (v : α) :
    List (String × α) :=
  if d.any (fun p => decide (p.1 = k)) then
    d.map (fun p => if p.1 = k then (k, v) else p)
  else d ++ [(k, v)]

/-- Python three-way comparison on scalars; `none` models a `TypeError`
between incomparable operands. -/
def pyCmpScalar : Scalar → Scalar → Option Ordering
  | .int a, .int b => some (compare a b)
  | .str a, .str b => some (compare a b)
  | _, _ => none

/-- Python list comparison: lexicographic, left to right, length breaking
ties; the first incomparable element pair raises. -/
def pyCmpList : List Scalar → List Scalar → Option Ordering
  | [], [] => some .eq
  | [], _ :: _ => some .lt
  | _ :: _, [] => some .gt
  | a :: l1, b :: l2 =>
    match pyCmpScalar a b with
    | none => none
    | some .eq => pyCmpList l1 l2
    | some o => some o

/-- Python `>` on values; `none` models a `TypeError` (incomparable
operands). `nan` compares false against numbers, as float NaN does. -/
def pyGT : Value → Value → Option Bool
  | .int a, .int b => some (decide (b < a))
  | .str a, .str b => some (decide (compare a b = Ordering.gt))
  | .nan, .int _ => some false
  | .int _, .nan => some false
  | .nan, .nan => some false
  | .list a, .list b => (pyCmpList a b).map (fun o => o == Ordering.gt)
  | _, _ => none

/-- The forward registry `STATISTICS_TO_CHECKS`: statistic name to rule
constructor, in the insertion order of the source: `min`, `max`, `levels`. -/
def STATISTICS_TO_CHECKS : List (String × (Value → Check)) :=
  [("min", Check.greater_than_or_equal_to),
   ("max", Check.less_than_or_equal_to),
   ("levels", Check.isin)]

/-- The reverse registry applied to a rule:
`CHECKS_TO_STATISTICS.get(check.name, (None, None))` combined with the
extractor `get_stat_fn(check)` reading the `statistics` view of the rule. A rule
kind outside the table gives `none` (the `(None, None)` default). -/
def checkToStatistic : Check → Option (String × Value)
  | .greater_than_or_equal_to v => some ("min", v)
  | .less_than_or_equal_to v => some ("max", v)
  | .isin v => some ("levels", v)
  | .other _ => none

/-- Source `parse_check_statistics`: `None` in, `None` out; otherwise one rule per
statistic name present in both the forward table and the mapping, appended
in forward-table iteration order; `None` (never `[]`) when no rule was
built. -/
def parse_check_statistics : Option Dict → Option (List Check)
  | none => none
  | some check_stats =>
    let checks := STATISTICS_TO_CHECKS.foldl
      (fun acc sf =>
        match dget check_stats sf.1 with
        | none => acc
        | some v => acc ++ [sf.2 v]) []
    if checks.isEmpty then none else some checks

/-- Errors `parse_checks` can raise: the `ValueError` for incompatible
min/max rules (carrying both rules and both values), a `TypeError` from
comparing incomparable collected values, and the (unreachable) `KeyError`
from the memo lookups. -/
inductive ParseError where
  | incompatible : Check → Check → Value → Value → ParseError
  | typeError : ParseError
  | keyError : ParseError
deriving DecidableEq, Repr

/-- One iteration of the collection loop of `parse_checks`: a recognized
rule records `stat_name -> extracted value` in `check_statistics` and
`stat_name -> check` in `_check_memo`; anything else is skipped. -/
def parse_checks_step (acc : Dict × List (String × Check)) (check : Check) :
    Dict × List (String × Check) :=
  match checkToStatistic check with
  | none => acc
  | some (stat_name, v) =>
    (dinsert acc.1 stat_name v, dinsert acc.2 stat_name check)

/-- The collection loop of `parse_checks`: builds `check_statistics` and
`_check_memo` from the rule sequence. -/
def parse_checks_collect (checks : List Check) :
    Dict × List (String × Check) :=
  checks.foldl parse_checks_step ([], [])

/-- Source `parse_checks`: collect statistics from the rules, raise when both a
`min` and a `max` were collected and `min > max`, and otherwise return the
collected mapping, `None` when it is empty. -/
def parse_checks (checks : List Check) : Except ParseError (Option Dict) :=
  let acc := parse_checks_collect checks
  let check_statistics := acc.1
  let check_memo := acc.2
  let result : Except ParseError (Option Dict) :=
    Except.ok (if check_statistics.isEmpty then none else some check_statistics)
  match dget check_statistics "min", dget check_statistics "max" with
  | some min_value, some max_value =>
    match pyGT min_value max_value with
    | none => Except.error ParseError.typeError
    | some true =>
      match dget check_memo "min", dget check_memo "max" with
      | some mc, some xc =>
        Except.error (ParseError.incompatible mc xc min_value max_value)
      | _, _ => Except.error ParseError.keyError
    | some false => result
  | _, _ => result

/-- The `PandasDtype` enumeration (`pandera/dtypes.py`): the semantic type
tags the source names. -/
inductive PandasDtype where
  | Bool | DateTime | Category | Timedelta | Object | String
  | Float | Float16 | Float32 | Float64
  | Int | Int8 | Int16 | Int32 | Int64
  | UInt8 | UInt16 | UInt32 | UInt64
deriving DecidableEq, Repr

/-- Plain strings, spelled so that the name stays visible inside the
`PandasDtype` namespace, where the `String` dtype member shadows it. -/
abbrev PyString := String

/-- Source `NUMERIC_DTYPES`: the dtypes given range statistics, exactly the
members frozen in the source. -/
def NUMERIC_DTYPES : List PandasDtype :=
  [.Float, .Float16, .Float32, .Float64,
   .Int, .Int8, .Int16, .Int32, .Int64,
   .UInt8, .UInt16, .UInt32, .UInt64,
   .DateTime]

/-- A cell of a labeled array: missing, or an integer, string or boolean
element. -/
inductive Cell where
  | na : Cell
  | int : Int → Cell
  | str : String → Cell
  | bool : Bool → Cell
deriving DecidableEq, Repr

/-- A labeled array (a pandas `Series`, column, or index level): its
declared storage dtype string, its cells, its label, and the two possible
categorical accessors (`.cat.categories` on a categorical series,
`.categories` on a categorical index). -/
structure PdArray where
  dtype : String
  values : List Cell
  name : Option String
  cat_categories : Option (List Scalar)
  categories : Option (List Scalar)
deriving DecidableEq, Repr

/-- Modelled from the spec: `PandasDtype.from_str_alias` lives in
`pandera/dtypes.py`, which is not among the sources. The spec specifies a
parse-from-string-alias operation taking the declared storage dtype string
to a `SemanticType`, with unknown storage types mapping to the
generic/object tag rather than failing. -/
def PandasDtype.from_str_alias (alias1 : PyString) : PandasDtype :=
  if alias1 = "bool" then .Bool
  else if alias1 = "datetime64[ns]" then .DateTime
  else if alias1 = "category" then .Category
  else if alias1 = "timedelta64[ns]" then .Timedelta
  else if alias1 = "float" then .Float
  else if alias1 = "float16" then .Float16
  else if alias1 = "float32" then .Float32
  else if alias1 = "float64" then .Float64
  else if alias1 = "int" then .Int
  else if alias1 = "int8" then .Int8
  else if alias1 = "int16" then .Int16
  else if alias1 = "int32" then .Int32
  else if alias1 = "int64" then .Int64
  else if alias1 = "uint8" then .UInt8
  else if alias1 = "uint16" then .UInt16
  else if alias1 = "uint32" then .UInt32
  else if alias1 = "uint64" then .UInt64
  else if alias1 = "str" then .String
  else .Object

/-- Is a cell missing? (`isna`). -/
def cellIsNa : Cell → Bool
  | .na => true
  | _ => false

/-- Is a cell an integer element? -/
def cellIsInt : Cell → Bool
  | .int _ => true
  | _ => false

/-- Is a cell a string element? -/
def cellIsStr : Cell → Bool
  | .str _ => true
  | _ => false

/-- Is a cell a boolean element? -/
def cellIsBool : Cell → Bool
  | .bool _ => true
  | _ => false

/-- Models the external collaborator `pd.api.types.infer_dtype(x, skipna=True)`:
inspect the element values, skipping missing entries, and report the content
category as a string label. -/
def pd_infer_dtype (cells : List Cell) : String :=
  let vs := cells.filter (fun c => !cellIsNa c)
  if vs.isEmpty then "empty"
  else if vs.all cellIsInt then "integer"
  else if vs.all cellIsStr then "string"
  else if vs.all cellIsBool then "boolean"
  else "mixed"

/-- Modelled from the spec: `PandasDtype.from_pandas_api_type` lives in
`pandera/dtypes.py`, which is not among the sources. The spec specifies a
parse-from-generic-type-label operation mapping the inferred content
category to a `SemanticType`. -/
def PandasDtype.from_pandas_api_type (api_type : PyString) : PandasDtype :=
  if api_type = "integer" then .Int
  else if api_type = "floating" then .Float
  else if api_type = "boolean" then .Bool
  else if api_type = "string" then .String
  else if api_type = "categorical" then .Category
  else if api_type = "datetime64" then .DateTime
  else .Object

/-- Source `_get_array_type`: alias-resolve the declared storage dtype; only when
the result is the generic `Object` tag, re-resolve from the inferred
content category. -/
def _get_array_type (x : PdArray) : PandasDtype :=
  let dtype := PandasDtype.from_str_alias x.dtype
  if dtype = PandasDtype.Object then
    PandasDtype.from_pandas_api_type (pd_infer_dtype x.values)
  else dtype

/-- Source `x.isna().any()`: does the array hold a missing cell? -/
def pd_isna_any (x : PdArray) : Bool :=
  x.values.any cellIsNa

/-- The integer contents of a cell list, when every cell is an integer. -/
def cellsAsInts (cells : List Cell) : Option (List Int) :=
  cells.mapM (fun c => match c with | Cell.int n => some n | _ => none)

/-- Source `x.min()`: reduction over the non-missing cells; NaN on an empty or
non-uniform reduction. Only the shape of the result matters to the claims. -/
def pd_min (x : PdArray) : Value :=
  let vs := x.values.filter (fun c => !cellIsNa c)
  match cellsAsInts vs with
  | some (n :: rest) => Value.int (rest.foldl min n)
  | _ => Value.nan

/-- Source `x.max()`: reduction over the non-missing cells; NaN on an empty or
non-uniform reduction. -/
def pd_max (x : PdArray) : Value :=
  let vs := x.values.filter (fun c => !cellIsNa c)
  match cellsAsInts vs with
  | some (n :: rest) => Value.int (rest.foldl max n)
  | _ => Value.nan

/-- The categorical accessor chain of `_get_array_check_statistics`: try
`x.cat.categories`, fall back to `x.categories` on `AttributeError`.
A categorical array is assumed to expose at least one of the two; absent
both, the model yields no category set where the original raises
`AttributeError`. -/
def categoriesOf (x : PdArray) : Option (List Scalar) :=
  match x.cat_categories with
  | some cs => some cs
  | none => x.categories

/-- Source `_get_array_check_statistics`: a min/max range for numeric-like dtypes,
the declared category set for categorical dtypes, nothing otherwise;
`None` (never `{}`) when the mapping would be empty. -/
def _get_array_check_statistics (x : PdArray) (dtype : PandasDtype) :
    Option Dict :=
  let check_stats : Dict :=
    if dtype ∈ NUMERIC_DTYPES ∨ dtype = PandasDtype.DateTime then
      [("min", pd_min x), ("max", pd_max x)]
    else if dtype = PandasDtype.Category then
      match categoriesOf x with
      | some cs => [("levels", Value.list cs)]
      | none => []
    else []
  if check_stats.isEmpty then none else some check_stats

/-- A per-series / per-index-level statistics record: type, nullability,
optional checks mapping, label. -/
structure StatisticsRecord where
  pandas_dtype : PandasDtype
  nullable : Bool
  checks : Option Dict
  name : Option String
deriving DecidableEq, Repr

/-- A pandas index: single-level, multi-level (its level arrays in level
order), or some unrecognized object tagged by its type name. -/
inductive PdIndex where
  | index : PdArray → PdIndex
  | multi : List PdArray → PdIndex
  | unrecognized : String → PdIndex
deriving DecidableEq, Repr

/-- The `_index_stats` helper of `infer_index_statistics`: one record per
index level. -/
def _index_stats (index_level : PdArray) : StatisticsRecord :=
  let dtype := _get_array_type index_level
  { pandas_dtype := dtype,
    nullable := pd_isna_any index_level,
    checks := _get_array_check_statistics index_level dtype,
    name := index_level.name }

/-- Source `infer_index_statistics`: one record per level of a multi-level index in
level order, a one-element list for a single-level index, and for an
unrecognized index type a warning (second component) with an empty
collection; an empty collection becomes `None`. -/
def infer_index_statistics (index : PdIndex) :
    Option (List StatisticsRecord) × List String :=
  let pair :=
    match index with
    | .multi levels => (levels.map _index_stats, ([] : List String))
    | .index arr => ([_index_stats arr], [])
    | .unrecognized tag =>
      ([], ["index type " ++ tag ++ " not recognized, skipping index inference"])
  (if pair.1.isEmpty then none else some pair.1, pair.2)

/-- Source `infer_series_statistics`: the statistics record of one labeled array. -/
def infer_series_statistics (series : PdArray) : StatisticsRecord :=
  let dtype := _get_array_type series
  { pandas_dtype := dtype,
    nullable := pd_isna_any series,
    checks := _get_array_check_statistics series dtype,
    name := series.name }

/-- A table-column statistics entry (keyed by column name at the parent, so
no `name` field). -/
structure ColumnStatistics where
  pandas_dtype : PandasDtype
  nullable : Bool
  checks : Option Dict
deriving DecidableEq, Repr

/-- A pandas DataFrame: ordered named columns and an index. -/
structure PdDataFrame where
  columns : List (String × PdArray)
  index : PdIndex
deriving DecidableEq, Repr

/-- The whole-table summary of `infer_dataframe_statistics`. -/
structure TableStatistics where
  columns : Option (List (String × ColumnStatistics))
  index : Option (List StatisticsRecord)
deriving DecidableEq, Repr

/-- Source `infer_dataframe_statistics`: per-column type resolution, nullability
and statistics (`None` columns mapping for a zero-column table), plus the
index statistics; warnings from index inference in the second component. -/
def infer_dataframe_statistics (df : PdDataFrame) :
    TableStatistics × List String :=
  let column_statistics := df.columns.map (fun nc =>
    let dtype := _get_array_type nc.2
    (nc.1, { pandas_dtype := dtype,
             nullable := pd_isna_any nc.2,
             checks := _get_array_check_statistics nc.2 dtype
             : ColumnStatistics }))
  let idx := infer_index_statistics df.index
  ({ columns := if column_statistics.isEmpty then none else some column_statistics,
     index := idx.1 }, idx.2)

/-- A declared column of a dataframe schema: the fields the decomposer
reads (`_pandas_dtype`, `nullable`, `checks`). -/
structure ColumnSchema where
  pandas_dtype : PandasDtype
  nullable : Bool
  checks : List Check
deriving DecidableEq, Repr

/-- A declared series-like schema component: a column schema plus a label. -/
structure SeriesSchemaBase where
  pandas_dtype : PandasDtype
  nullable : Bool
  checks : List Check
  name : Option String
deriving DecidableEq, Repr

/-- The index component of a dataframe schema: a single series-like
component, or a multi-index exposing an `indexes` list of components. -/
inductive IndexSchemaComponent where
  | single : SeriesSchemaBase → IndexSchemaComponent
  | multi : List SeriesSchemaBase → IndexSchemaComponent
deriving DecidableEq, Repr

/-- A dataframe schema: its declared columns and optional index component. -/
structure DataFrameSchema where
  columns : List (String × ColumnSchema)
  index : Option IndexSchemaComponent
deriving DecidableEq, Repr

/-- The whole-table result of the decomposer. Its `columns` is a plain mapping:
the source applies no emptiness guard on this path. -/
structure DataFrameSchemaStatistics where
  columns : List (String × ColumnStatistics)
  index : Option (List StatisticsRecord)
deriving DecidableEq, Repr

/-- Source `_get_series_base_schema_statistics`: read the declared type,
nullability and label, and decompose the declared rules via `parse_checks`
(whose error propagates). -/
def _get_series_base_schema_statistics (s : SeriesSchemaBase) :
    Except ParseError StatisticsRecord := do
  let cks ← parse_checks s.checks
  pure { pandas_dtype := s.pandas_dtype,
         nullable := s.nullable,
         checks := cks,
         name := s.name }

/-- Source `get_index_schema_statistics`: decompose each sub-component of a
multi-level index schema (`component.indexes`), or the single component
itself when that attribute is absent. -/
def get_index_schema_statistics (c : IndexSchemaComponent) :
    Except ParseError (List StatisticsRecord) :=
  let index_components :=
    match c with
    | .multi indexes => indexes
    | .single s => [s]
  index_components.mapM _get_series_base_schema_statistics

/-- Source `get_series_schema_statistics`. -/
def get_series_schema_statistics (s : SeriesSchemaBase) :
    Except ParseError StatisticsRecord :=
  _get_series_base_schema_statistics s

/-- Source `get_dataframe_schema_statistics`: walk the declared columns, reading
type and nullability directly and decomposing the rules of each column; the
index component decomposes when declared. The columns mapping carries no
emptiness guard in the source. -/
def get_dataframe_schema_statistics (schema : DataFrameSchema) :
    Except ParseError DataFrameSchemaStatistics := do
  let cols ← schema.columns.mapM (fun nc => do
    let cks ← parse_checks nc.2.checks
    pure (nc.1, { pandas_dtype := nc.2.pandas_dtype,
                  nullable := nc.2.nullable,
                  checks := cks : ColumnStatistics }))
  let idx ← match schema.index with
    | none => pure none
    | some ic => do
      let s ← get_index_schema_statistics ic
      pure (some s)
  pure { columns := cols, index := idx }

/-! Dictionary lemmas. -/

theorem dget_nil {α : Type} (k : String) :
    dget ([] : List (String × α)) k = none := rfl

theorem dget_cons {α : Type} (k1 : String) (v : α) (rest : List (String × α))
    (k : String) :
    dget ((k1, v) :: rest) k = if k1 = k then some v else dget rest k := rfl

theorem dget_append {α : Type} (d1 d2 : List (String × α)) (k : String) :
    dget (d1 ++ d2) k =
      match dget d1 k with
      | some v => some v
      | none => dget d2 k := by
  induction d1 with
  | nil => simp [dget]
  | cons p rest ih =>
    obtain ⟨pk, pv⟩ := p
    rw [List.cons_append, dget_cons, dget_cons]
    by_cases h : pk = k
    · rw [if_pos h, if_pos h]
    · rw [if_neg h, if_neg h, ih]

theorem dget_none_of_not_any {α : Type} (d : List (String × α)) (k : String)
    (h : d.any (fun p => decide (p.1 = k)) = false) : dget d k = none := by
  induction d with
  | nil => rfl
  | cons p rest ih =>
    obtain ⟨pk, pv⟩ := p
    simp only [List.any_cons, Bool.or_eq_false_iff, decide_eq_false_iff_not] at h
    rw [dget_cons, if_neg h.1, ih h.2]

theorem dget_replace_ne {α : Type} (d : List (String × α)) (k k1 : String)
    (v : α) (hne : k1 ≠ k) :
    dget (d.map (fun p => if p.1 = k then (k, v) else p)) k1 = dget d k1 := by
  induction d with
  | nil => rfl
  | cons p rest ih =>
    obtain ⟨pk, pv⟩ := p
    rw [List.map_cons]
    by_cases h : pk = k
    · have hhead : (if (pk, pv).1 = k then (k, v) else (pk, pv)) = (k, v) :=
        if_pos h
      have hk1 : ¬k = k1 := fun hk => hne hk.symm
      have hpk1 : ¬pk = k1 := fun hk2 => hne (hk2 ▸ h)
      rw [hhead, dget_cons, dget_cons, if_neg hk1, if_neg hpk1, ih]
    · have hhead : (if (pk, pv).1 = k then (k, v) else (pk, pv)) = (pk, pv) :=
        if_neg h
      rw [hhead, dget_cons, dget_cons, ih]

theorem dget_replace_self {α : Type} (d : List (String × α)) (k : String)
    (v : α) (h : d.any (fun p => decide (p.1 = k)) = true) :
    dget (d.map (fun p => if p.1 = k then (k, v) else p)) k = some v := by
  induction d with
  | nil => simp at h
  | cons p rest ih =>
    obtain ⟨pk, pv⟩ := p
    rw [List.map_cons]
    by_cases hp : pk = k
    · have hhead : (if (pk, pv).1 = k then (k, v) else (pk, pv)) = (k, v) :=
        if_pos hp
      rw [hhead, dget_cons, if_pos rfl]
    · have hhead : (if (pk, pv).1 = k then (k, v) else (pk, pv)) = (pk, pv) :=
        if_neg hp
      simp only [List.any_cons, Bool.or_eq_true, decide_eq_true_eq] at h
      rcases h with h | h
      · exact absurd h hp
      · rw [hhead, dget_cons, if_neg hp, ih h]

theorem dget_dinsert {α : Type} (d : List (String × α)) (k k1 : String) (v : α) :
    dget (dinsert d k v) k1 = if k1 = k then some v else dget d k1 := by
  unfold dinsert
  by_cases hany : d.any (fun p => decide (p.1 = k)) = true
  · rw [if_pos hany]
    by_cases hk : k1 = k
    · subst hk; rw [if_pos rfl, dget_replace_self d k1 v hany]
    · rw [if_neg hk, dget_replace_ne d k k1 v hk]
  · rw [if_neg hany, dget_append]
    have hfalse : d.any (fun p => decide (p.1 = k)) = false := by
      revert hany; cases d.any (fun p => decide (p.1 = k)) <;> simp
    have hnone := dget_none_of_not_any d k hfalse
    by_cases hk : k1 = k
    · subst hk
      rw [hnone]
      simp [dget_cons]
    · rw [if_neg hk]
      cases h1 : dget d k1 with
      | some w => rfl
      | none =>
        have hne2 : ¬k = k1 := fun hh => hk hh.symm
        rw [dget_cons, if_neg hne2, dget_nil]

/-! The collection loop of `parse_checks`. -/

/-- The rules of a sequence that the reverse registry maps to a given
statistic name, in sequence order. -/
def rulesFor (checks : List Check) (stat : String) : List Check :=
  checks.filter (fun c => decide ((checkToStatistic c).map Prod.fst = some stat))

theorem collect_foldl_spec (checks : List Check) (stat : String) :
    ∀ acc : Dict × List (String × Check),
      (dget (checks.foldl parse_checks_step acc).1 stat =
        (match (rulesFor checks stat).getLast? with
         | some c => (checkToStatistic c).map Prod.snd
         | none => dget acc.1 stat)) ∧
      (dget (checks.foldl parse_checks_step acc).2 stat =
        (match (rulesFor checks stat).getLast? with
         | some c => some c
         | none => dget acc.2 stat)) := by
  induction checks with
  | nil => intro acc; simp [rulesFor]
  | cons c cs ih =>
    intro acc
    rw [List.foldl_cons]
    cases hc : checkToStatistic c with
    | none =>
      have hstep : parse_checks_step acc c = acc := by
        simp [parse_checks_step, hc]
      have hfilter : rulesFor (c :: cs) stat = rulesFor cs stat := by
        simp [rulesFor, List.filter_cons, hc]
      rw [hstep, hfilter]
      exact ih acc
    | some sv =>
      obtain ⟨s, v⟩ := sv
      have hstep : parse_checks_step acc c =
          (dinsert acc.1 s v, dinsert acc.2 s c) := by
        simp [parse_checks_step, hc]
      rw [hstep]
      by_cases hs : s = stat
      · subst hs
        have hfilter : rulesFor (c :: cs) s = c :: rulesFor cs s := by
          simp [rulesFor, List.filter_cons, hc]
        rw [hfilter]
        obtain ⟨h1, h2⟩ := ih (dinsert acc.1 s v, dinsert acc.2 s c)
        cases htail : (rulesFor cs s).getLast? with
        | some c2 =>
          have hcons : (c :: rulesFor cs s).getLast? = some c2 := by
            cases hlist : rulesFor cs s with
            | nil => rw [hlist] at htail; simp at htail
            | cons x xs =>
              rw [hlist] at htail
              rw [List.getLast?_cons_cons]
              exact htail
          rw [hcons]
          rw [htail] at h1 h2
          simp only at h1 h2
          exact ⟨h1, h2⟩
        | none =>
          have hnil : rulesFor cs s = [] := List.getLast?_eq_none_iff.mp htail
          have hcons : (c :: rulesFor cs s).getLast? = some c := by
            rw [hnil]; rfl
          rw [hcons]
          rw [htail] at h1 h2
          simp only at h1 h2
          constructor
          · rw [h1, dget_dinsert, if_pos rfl]
            simp [hc]
          · rw [h2, dget_dinsert, if_pos rfl]
      · have hfilter : rulesFor (c :: cs) stat = rulesFor cs stat := by
          simp [rulesFor, List.filter_cons, hc, hs]
        rw [hfilter]
        have hmain := ih (dinsert acc.1 s v, dinsert acc.2 s c)
        have h1 := hmain.1
        have h2 := hmain.2
        have e1 : dget (dinsert acc.1 s v) stat = dget acc.1 stat := by
          rw [dget_dinsert, if_neg (fun h => hs h.symm)]
        have e2 : dget (dinsert acc.2 s c) stat = dget acc.2 stat := by
          rw [dget_dinsert, if_neg (fun h => hs h.symm)]
        rw [e1] at h1
        rw [e2] at h2
        exact ⟨h1, h2⟩

/-- The collected `check_statistics` entry for a statistic is the value
extracted from the last rule mapping to it. -/
theorem collect_stats_eq (checks : List Check) (stat : String) :
    dget (parse_checks_collect checks).1 stat =
      ((rulesFor checks stat).getLast?).bind
        (fun c => (checkToStatistic c).map Prod.snd) := by
  have h := (collect_foldl_spec checks stat ([], [])).1
  rw [parse_checks_collect, h]
  cases (rulesFor checks stat).getLast? <;> rfl

/-- The `_check_memo` entry for a statistic is the last rule mapping to it. -/
theorem collect_memo_eq (checks : List Check) (stat : String) :
    dget (parse_checks_collect checks).2 stat =
      (rulesFor checks stat).getLast? := by
  have h := (collect_foldl_spec checks stat ([], [])).2
  rw [parse_checks_collect, h]
  cases (rulesFor checks stat).getLast? <;> rfl

/-- A collected statistics entry comes from some rule of the input that the
reverse registry maps to that statistic name. -/
theorem collect_stats_mem (checks : List Check) (stat : String) (v : Value)
    (h : dget (parse_checks_collect checks).1 stat = some v) :
    ∃ c ∈ checks, checkToStatistic c = some (stat, v) := by
  rw [collect_stats_eq] at h
  cases hlast : (rulesFor checks stat).getLast? with
  | none => rw [hlast] at h; simp at h
  | some c =>
    rw [hlast] at h
    simp only [Option.some_bind] at h
    have hmem := List.mem_of_mem_getLast? hlast
    have hmem2 := List.mem_filter.mp hmem
    refine ⟨c, hmem2.1, ?_⟩
    have hp := hmem2.2
    rw [decide_eq_true_eq] at hp
    cases hcs : checkToStatistic c with
    | none => rw [hcs] at hp; simp at hp
    | some sv =>
      rw [hcs] at hp h
      obtain ⟨s1, v1⟩ := sv
      simp at hp h
      simp [hp, h]

/-- The memo holds an entry exactly when the statistics mapping does. -/
theorem collect_memo_isSome (checks : List Check) (stat : String) :
    (dget (parse_checks_collect checks).2 stat).isSome =
      (dget (parse_checks_collect checks).1 stat).isSome := by
  rw [collect_stats_eq, collect_memo_eq]
  cases hlast : (rulesFor checks stat).getLast? with
  | none => rfl
  | some c =>
    have hmem := List.mem_of_mem_getLast? hlast
    have hp := (List.mem_filter.mp hmem).2
    rw [decide_eq_true_eq] at hp
    cases hcs : checkToStatistic c with
    | none => rw [hcs] at hp; simp at hp
    | some sv => simp [hcs]

theorem memo_some_of_stats (checks : List Check) (stat : String) (w : Value)
    (h : dget (parse_checks_collect checks).1 stat = some w) :
    ∃ c, dget (parse_checks_collect checks).2 stat = some c := by
  have hs := collect_memo_isSome checks stat
  rw [h] at hs
  simp only [Option.isSome_some] at hs
  exact Option.isSome_iff_exists.mp hs

/-! Evaluation lemmas for `parse_checks`. -/

/-- The well-typedness contract of the rule objects: bound rules carry
numeric scalars (the `min`/`max` values of the data model). -/
def numericBounds : Check → Bool
  | .greater_than_or_equal_to (.int _) => true
  | .greater_than_or_equal_to _ => false
  | .less_than_or_equal_to (.int _) => true
  | .less_than_or_equal_to _ => false
  | _ => true

theorem collected_min_int (checks : List Check)
    (h : ∀ c ∈ checks, numericBounds c = true) (w : Value)
    (hmin : dget (parse_checks_collect checks).1 "min" = some w) :
    ∃ n : Int, w = Value.int n := by
  obtain ⟨c, hcmem, hcs⟩ := collect_stats_mem checks "min" w hmin
  have hnb := h c hcmem
  cases c with
  | greater_than_or_equal_to v =>
    simp only [checkToStatistic, Option.some.injEq, Prod.mk.injEq] at hcs
    obtain ⟨-, rfl⟩ := hcs
    cases v with
    | int n => exact ⟨n, rfl⟩
    | str s => simp [numericBounds] at hnb
    | nan => simp [numericBounds] at hnb
    | list l => simp [numericBounds] at hnb
  | less_than_or_equal_to v => simp [checkToStatistic] at hcs
  | isin v => simp [checkToStatistic] at hcs
  | other n => simp [checkToStatistic] at hcs

theorem collected_max_int (checks : List Check)
    (h : ∀ c ∈ checks, numericBounds c = true) (w : Value)
    (hmax : dget (parse_checks_collect checks).1 "max" = some w) :
    ∃ n : Int, w = Value.int n := by
  obtain ⟨c, hcmem, hcs⟩ := collect_stats_mem checks "max" w hmax
  have hnb := h c hcmem
  cases c with
  | less_than_or_equal_to v =>
    simp only [checkToStatistic, Option.some.injEq, Prod.mk.injEq] at hcs
    obtain ⟨-, rfl⟩ := hcs
    cases v with
    | int n => exact ⟨n, rfl⟩
    | str s => simp [numericBounds] at hnb
    | nan => simp [numericBounds] at hnb
    | list l => simp [numericBounds] at hnb
  | greater_than_or_equal_to v => simp [checkToStatistic] at hcs
  | isin v => simp [checkToStatistic] at hcs
  | other n => simp [checkToStatistic] at hcs

theorem parse_checks_error_eval (checks : List Check) (a b : Int)
    (mc xc : Check) (hab : b < a)
    (hmin : dget (parse_checks_collect checks).1 "min" = some (Value.int a))
    (hmax : dget (parse_checks_collect checks).1 "max" = some (Value.int b))
    (hmc : dget (parse_checks_collect checks).2 "min" = some mc)
    (hxc : dget (parse_checks_collect checks).2 "max" = some xc) :
    parse_checks checks =
      Except.error (ParseError.incompatible mc xc (Value.int a) (Value.int b)) := by
  have hgt : pyGT (Value.int a) (Value.int b) = some true := by
    simp [pyGT, hab]
  simp only [parse_checks, hmin, hmax, hgt, hmc, hxc]

theorem parse_checks_ok_of_le (checks : List Check) (a b : Int)
    (hab : ¬b < a)
    (hmin : dget (parse_checks_collect checks).1 "min" = some (Value.int a))
    (hmax : dget (parse_checks_collect checks).1 "max" = some (Value.int b)) :
    parse_checks checks = Except.ok (some (parse_checks_collect checks).1) := by
  have hgt : pyGT (Value.int a) (Value.int b) = some false := by
    simp [pyGT, hab]
  have hne : (parse_checks_collect checks).1.isEmpty = false := by
    cases hd : (parse_checks_collect checks).1 with
    | nil => rw [hd] at hmin; simp [dget] at hmin
    | cons p rest => rfl
  simp only [parse_checks, hmin, hmax, hgt, hne]
  rfl

theorem parse_checks_ok_of_missing (checks : List Check)
    (h : dget (parse_checks_collect checks).1 "min" = none ∨
         dget (parse_checks_collect checks).1 "max" = none) :
    parse_checks checks =
      Except.ok (if (parse_checks_collect checks).1.isEmpty then none
                 else some (parse_checks_collect checks).1) := by
  rcases h with h | h
  · cases h2 : dget (parse_checks_collect checks).1 "max" <;>
      simp only [parse_checks, h, h2]
  · cases h2 : dget (parse_checks_collect checks).1 "min" <;>
      simp only [parse_checks, h, h2]

theorem collect_filter_recognized (checks : List Check) :
    ∀ acc, checks.foldl parse_checks_step acc =
      (checks.filter (fun c => (checkToStatistic c).isSome)).foldl
        parse_checks_step acc := by
  induction checks with
  | nil => intro acc; rfl
  | cons c cs ih =>
    intro acc
    rw [List.filter_cons]
    cases hc : checkToStatistic c with
    | none =>
      have hstep : parse_checks_step acc c = acc := by
        simp [parse_checks_step, hc]
      simp only [hc, Option.isSome_none, Bool.false_eq_true, if_false,
        List.foldl_cons, hstep]
      exact ih acc
    | some sv =>
      simp only [hc, Option.isSome_some, if_true, List.foldl_cons]
      exact ih (parse_checks_step acc c)

/-! Claim theorems for the registry direction. -/

/-- C2: under the rule contract (bound rules carry numeric scalars),
`parse_checks` raises exactly when the collected statistics contain both a
`min` and a `max` with `min > max`; every raised error is the
incompatibility error carrying both offending rules and both offending
values, and no other input raises. -/
theorem C2_incompatible_exactly (checks : List Check)
    (hwt : ∀ c ∈ checks, numericBounds c = true) :
    (∀ e, parse_checks checks = Except.error e →
      ∃ (a b : Int) (mc xc : Check),
        dget (parse_checks_collect checks).1 "min" = some (Value.int a) ∧
        dget (parse_checks_collect checks).1 "max" = some (Value.int b) ∧
        b < a ∧
        dget (parse_checks_collect checks).2 "min" = some mc ∧
        dget (parse_checks_collect checks).2 "max" = some xc ∧
        e = ParseError.incompatible mc xc (Value.int a) (Value.int b)) ∧
    (∀ a b : Int,
      dget (parse_checks_collect checks).1 "min" = some (Value.int a) →
      dget (parse_checks_collect checks).1 "max" = some (Value.int b) →
      b < a → ∃ e, parse_checks checks = Except.error e) := by
  constructor
  · intro e he
    cases hmin : dget (parse_checks_collect checks).1 "min" with
    | none =>
      rw [parse_checks_ok_of_missing checks (Or.inl hmin)] at he
      simp at he
    | some mv =>
      cases hmax : dget (parse_checks_collect checks).1 "max" with
      | none =>
        rw [parse_checks_ok_of_missing checks (Or.inr hmax)] at he
        simp at he
      | some xv =>
        obtain ⟨a, rfl⟩ := collected_min_int checks hwt mv hmin
        obtain ⟨b, rfl⟩ := collected_max_int checks hwt xv hmax
        by_cases hab : b < a
        · obtain ⟨mc, hmc⟩ := memo_some_of_stats checks "min" _ hmin
          obtain ⟨xc, hxc⟩ := memo_some_of_stats checks "max" _ hmax
          have heval :=
            parse_checks_error_eval checks a b mc xc hab hmin hmax hmc hxc
          rw [heval] at he
          injection he with h1
          exact ⟨a, b, mc, xc, rfl, rfl, hab, hmc, hxc, h1.symm⟩
        · rw [parse_checks_ok_of_le checks a b hab hmin hmax] at he
          simp at he
  · intro a b hmin hmax hab
    obtain ⟨mc, hmc⟩ := memo_some_of_stats checks "min" _ hmin
    obtain ⟨xc, hxc⟩ := memo_some_of_stats checks "max" _ hmax
    exact ⟨_, parse_checks_error_eval checks a b mc xc hab hmin hmax hmc hxc⟩

theorem C2_incompatible_exactly_witness :
    ∃ e, parse_checks [Check.greater_than_or_equal_to (Value.int 10),
                       Check.less_than_or_equal_to (Value.int 5)] =
      Except.error e :=
  (C2_incompatible_exactly
    [Check.greater_than_or_equal_to (Value.int 10),
     Check.less_than_or_equal_to (Value.int 5)]
    (by decide)).2 10 5 (by rfl) (by rfl) (by decide)

/-- C5: when several rules map to the same statistic name, the collected
statistics value is the one extracted from the last such rule, the memo
entry is that same last rule, and the rules reported in an incompatibility
error are exactly the last `min` rule and the last `max` rule. -/
theorem C5_last_rule_wins :
    (∀ (checks : List Check) (stat : String),
      dget (parse_checks_collect checks).1 stat =
        ((rulesFor checks stat).getLast?).bind
          (fun c => (checkToStatistic c).map Prod.snd)) ∧
    (∀ (checks : List Check) (stat : String),
      dget (parse_checks_collect checks).2 stat =
        (rulesFor checks stat).getLast?) ∧
    (∀ (checks : List Check) (mc xc : Check) (va vb : Value),
      parse_checks checks =
        Except.error (ParseError.incompatible mc xc va vb) →
      (rulesFor checks "min").getLast? = some mc ∧
      (rulesFor checks "max").getLast? = some xc) := by
  refine ⟨collect_stats_eq, collect_memo_eq, ?_⟩
  intro checks mc xc va vb h
  simp only [parse_checks] at h
  cases hmin : dget (parse_checks_collect checks).1 "min" with
  | none =>
    rw [hmin] at h
    cases hmax : dget (parse_checks_collect checks).1 "max" <;>
      rw [hmax] at h <;> simp at h
  | some mv =>
    cases hmax : dget (parse_checks_collect checks).1 "max" with
    | none => rw [hmin, hmax] at h; simp at h
    | some xv =>
      rw [hmin, hmax] at h
      simp only at h
      cases hgt : pyGT mv xv with
      | none => rw [hgt] at h; simp at h
      | some bl =>
        rw [hgt] at h
        cases bl with
        | false => simp at h
        | true =>
          simp only at h
          cases hmc : dget (parse_checks_collect checks).2 "min" with
          | none =>
            rw [hmc] at h
            cases hxc : dget (parse_checks_collect checks).2 "max" <;>
              rw [hxc] at h <;> simp at h
          | some mc2 =>
            cases hxc : dget (parse_checks_collect checks).2 "max" with
            | none => rw [hmc, hxc] at h; simp at h
            | some xc2 =>
              rw [hmc, hxc] at h
              simp only [Except.error.injEq, ParseError.incompatible.injEq] at h
              obtain ⟨rfl, rfl, -, -⟩ := h
              rw [← collect_memo_eq, ← collect_memo_eq]
              exact ⟨hmc, hxc⟩

theorem C5_last_rule_wins_witness :
    (rulesFor [Check.greater_than_or_equal_to (Value.int 1),
               Check.greater_than_or_equal_to (Value.int 10),
               Check.less_than_or_equal_to (Value.int 5)] "min").getLast? =
        some (Check.greater_than_or_equal_to (Value.int 10)) ∧
    (rulesFor [Check.greater_than_or_equal_to (Value.int 1),
               Check.greater_than_or_equal_to (Value.int 10),
               Check.less_than_or_equal_to (Value.int 5)] "max").getLast? =
        some (Check.less_than_or_equal_to (Value.int 5)) :=
  C5_last_rule_wins.2.2
    [Check.greater_than_or_equal_to (Value.int 1),
     Check.greater_than_or_equal_to (Value.int 10),
     Check.less_than_or_equal_to (Value.int 5)]
    (Check.greater_than_or_equal_to (Value.int 10))
    (Check.less_than_or_equal_to (Value.int 5))
    (Value.int 10) (Value.int 5) (by rfl)

/-- C9: the incompatibility comparison is strict, so a rule set whose
collected `min` equals its collected `max` decomposes successfully instead
of raising. -/
theorem C9_equal_bounds_ok (checks : List Check) (a : Int)
    (hmin : dget (parse_checks_collect checks).1 "min" = some (Value.int a))
    (hmax : dget (parse_checks_collect checks).1 "max" = some (Value.int a)) :
    parse_checks checks = Except.ok (some (parse_checks_collect checks).1) :=
  parse_checks_ok_of_le checks a a (lt_irrefl a) hmin hmax

theorem C9_equal_bounds_ok_witness :
    parse_checks [Check.greater_than_or_equal_to (Value.int 5),
                  Check.less_than_or_equal_to (Value.int 5)] =
      Except.ok (some [("min", Value.int 5), ("max", Value.int 5)]) :=
  C9_equal_bounds_ok
    [Check.greater_than_or_equal_to (Value.int 5),
     Check.less_than_or_equal_to (Value.int 5)] 5 (by rfl) (by rfl)

/-- C10: rules whose kind is absent from the reverse table are silently
skipped: `parse_checks` gives the same result as on the recognized
sub-sequence alone, and a sequence of only unrecognized rules (or an empty
sequence) yields `None` without error. -/
theorem C10_unrecognized_ignored :
    (∀ checks : List Check,
      parse_checks checks =
        parse_checks (checks.filter (fun c => (checkToStatistic c).isSome))) ∧
    (∀ checks : List Check, (∀ c ∈ checks, checkToStatistic c = none) →
      parse_checks checks = Except.ok none) := by
  have hcol : ∀ checks : List Check,
      parse_checks_collect checks =
        parse_checks_collect
          (checks.filter (fun c => (checkToStatistic c).isSome)) := by
    intro checks
    unfold parse_checks_collect
    exact collect_filter_recognized checks ([], [])
  constructor
  · intro checks
    simp only [parse_checks]
    rw [hcol]
  · intro checks h
    have hfilter : checks.filter (fun c => (checkToStatistic c).isSome) = [] := by
      rw [List.filter_eq_nil_iff]
      intro c hcm
      rw [h c hcm]
      simp
    have hempty := hcol checks
    rw [hfilter] at hempty
    simp only [parse_checks]
    rw [hempty]
    rfl

theorem C10_unrecognized_ignored_witness :
    parse_checks [Check.other "str_length"] = Except.ok none :=
  C10_unrecognized_ignored.2 [Check.other "str_length"] (by decide)

/-- C4: `parse_check_statistics` maps `None` to `None`; on a mapping it
builds exactly one rule per statistic name present in both the forward
table and the input, in forward-table order (`min`, `max`, `levels`), and
yields `None` instead of an empty sequence. -/
theorem C4_parse_check_statistics_shape :
    parse_check_statistics none = none ∧
    ∀ d : Dict,
      parse_check_statistics (some d) =
        (let cs := List.filterMap id
          [(dget d "min").map Check.greater_than_or_equal_to,
           (dget d "max").map Check.less_than_or_equal_to,
           (dget d "levels").map Check.isin]
         if cs.isEmpty then none else some cs) := by
  refine ⟨rfl, ?_⟩
  intro d
  cases h1 : dget d "min" <;> cases h2 : dget d "max" <;>
    cases h3 : dget d "levels" <;>
    simp [parse_check_statistics, STATISTICS_TO_CHECKS, h1, h2, h3]

/-! The round trip (C1). -/

/-- The key sequence of a dictionary. -/
def keysOf {α : Type} (d : List (String × α)) : List String := d.map Prod.fst

/-- Python `==` on dictionaries: equality as key-value mappings; insertion
order does not matter. -/
def dictEqB (d1 d2 : Dict) : Bool :=
  (keysOf d1 ++ keysOf d2).all (fun k => decide (dget d1 k = dget d2 k))

/-- The compatibility of a statistics mapping: when both `min` and `max`
are present, they compare as not greater. -/
def compatibleMinMax (S : Dict) : Bool :=
  match dget S "min", dget S "max" with
  | some a, some b => decide (pyGT a b = some false)
  | _, _ => true

theorem dictEqB_vocab (D S : Dict)
    (hD : ∀ p ∈ D, p.1 = "min" ∨ p.1 = "max" ∨ p.1 = "levels")
    (hS : ∀ p ∈ S, p.1 = "min" ∨ p.1 = "max" ∨ p.1 = "levels")
    (e1 : dget D "min" = dget S "min")
    (e2 : dget D "max" = dget S "max")
    (e3 : dget D "levels" = dget S "levels") :
    dictEqB D S = true := by
  unfold dictEqB
  rw [List.all_eq_true]
  intro k hk
  rw [decide_eq_true_eq]
  rcases List.mem_append.mp hk with hk1 | hk1 <;>
    obtain ⟨p, hp, hpk⟩ := List.mem_map.mp hk1
  · rcases hD p hp with h | h | h <;> rw [← hpk, h] <;> assumption
  · rcases hS p hp with h | h | h <;> rw [← hpk, h] <;> assumption

theorem parse_checks_ok_of_not_gt (checks : List Check) (mv xv : Value)
    (hgt : pyGT mv xv = some false)
    (hmin : dget (parse_checks_collect checks).1 "min" = some mv)
    (hmax : dget (parse_checks_collect checks).1 "max" = some xv) :
    parse_checks checks = Except.ok (some (parse_checks_collect checks).1) := by
  have hne : (parse_checks_collect checks).1.isEmpty = false := by
    cases hd : (parse_checks_collect checks).1 with
    | nil => rw [hd] at hmin; simp [dget] at hmin
    | cons p rest => rfl
  simp only [parse_checks, hmin, hmax, hgt, hne]
  rfl

/-- C1 counterexample: the round trip fails as stated. On the mapping
{min: 10, max: 5}, whose keys all lie in the recognized vocabulary,
decomposing the built rules raises the incompatibility error instead of
returning the original mapping. -/
theorem C1_round_trip_counterexample :
    parse_check_statistics
        (some [("min", Value.int 10), ("max", Value.int 5)]) =
      some [Check.greater_than_or_equal_to (Value.int 10),
            Check.less_than_or_equal_to (Value.int 5)] ∧
    parse_checks [Check.greater_than_or_equal_to (Value.int 10),
                  Check.less_than_or_equal_to (Value.int 5)] =
      Except.error (ParseError.incompatible
        (Check.greater_than_or_equal_to (Value.int 10))
        (Check.less_than_or_equal_to (Value.int 5))
        (Value.int 10) (Value.int 5)) :=
  ⟨rfl, rfl⟩

/-- C1 (amended): for a statistics mapping whose keys all lie in the
recognized vocabulary, from which at least one rule is built, and whose
`min` does not exceed its `max` when both are present, decomposing the
built rules returns the original mapping (as a key-value mapping). -/
theorem C1_round_trip (S : Dict) (cs : List Check)
    (hkeys : ∀ p ∈ S, p.1 = "min" ∨ p.1 = "max" ∨ p.1 = "levels")
    (hcompat : compatibleMinMax S = true)
    (hbuilt : parse_check_statistics (some S) = some cs) :
    ∃ D : Dict, parse_checks cs = Except.ok (some D) ∧ dictEqB D S = true := by
  cases h1 : dget S "min" with
  | none =>
    cases h2 : dget S "max" with
    | none =>
      cases h3 : dget S "levels" with
      | none =>
        simp [parse_check_statistics, STATISTICS_TO_CHECKS, h1, h2, h3]
          at hbuilt
      | some c =>
        simp [parse_check_statistics, STATISTICS_TO_CHECKS, h1, h2, h3]
          at hbuilt
        subst hbuilt
        refine ⟨[("levels", c)], rfl, dictEqB_vocab _ _ ?_ hkeys ?_ ?_ ?_⟩
        · simp [List.forall_mem_cons]
        · rw [h1]; rfl
        · rw [h2]; rfl
        · rw [h3]; rfl
    | some b =>
      cases h3 : dget S "levels" with
      | none =>
        simp [parse_check_statistics, STATISTICS_TO_CHECKS, h1, h2, h3]
          at hbuilt
        subst hbuilt
        refine ⟨[("max", b)], rfl, dictEqB_vocab _ _ ?_ hkeys ?_ ?_ ?_⟩
        · simp [List.forall_mem_cons]
        · rw [h1]; rfl
        · rw [h2]; rfl
        · rw [h3]; rfl
      | some c =>
        simp [parse_check_statistics, STATISTICS_TO_CHECKS, h1, h2, h3]
          at hbuilt
        subst hbuilt
        refine ⟨[("max", b), ("levels", c)], rfl,
          dictEqB_vocab _ _ ?_ hkeys ?_ ?_ ?_⟩
        · simp [List.forall_mem_cons]
        · rw [h1]; rfl
        · rw [h2]; rfl
        · rw [h3]; rfl
  | some a =>
    cases h2 : dget S "max" with
    | none =>
      cases h3 : dget S "levels" with
      | none =>
        simp [parse_check_statistics, STATISTICS_TO_CHECKS, h1, h2, h3]
          at hbuilt
        subst hbuilt
        refine ⟨[("min", a)], rfl, dictEqB_vocab _ _ ?_ hkeys ?_ ?_ ?_⟩
        · simp [List.forall_mem_cons]
        · rw [h1]; rfl
        · rw [h2]; rfl
        · rw [h3]; rfl
      | some c =>
        simp [parse_check_statistics, STATISTICS_TO_CHECKS, h1, h2, h3]
          at hbuilt
        subst hbuilt
        refine ⟨[("min", a), ("levels", c)], rfl,
          dictEqB_vocab _ _ ?_ hkeys ?_ ?_ ?_⟩
        · simp [List.forall_mem_cons]
        · rw [h1]; rfl
        · rw [h2]; rfl
        · rw [h3]; rfl
    | some b =>
      have hgt : pyGT a b = some false := by
        have h4 := hcompat
        simp only [compatibleMinMax, h1, h2, decide_eq_true_eq] at h4
        exact h4
      cases h3 : dget S "levels" with
      | none =>
        simp [parse_check_statistics, STATISTICS_TO_CHECKS, h1, h2, h3]
          at hbuilt
        subst hbuilt
        have hok := parse_checks_ok_of_not_gt
          [Check.greater_than_or_equal_to a, Check.less_than_or_equal_to b]
          a b hgt (by rfl) (by rfl)
        refine ⟨[("min", a), ("max", b)], hok,
          dictEqB_vocab _ _ ?_ hkeys ?_ ?_ ?_⟩
        · simp [List.forall_mem_cons]
        · rw [h1]; rfl
        · rw [h2]; rfl
        · rw [h3]; rfl
      | some c =>
        simp [parse_check_statistics, STATISTICS_TO_CHECKS, h1, h2, h3]
          at hbuilt
        subst hbuilt
        have hok := parse_checks_ok_of_not_gt
          [Check.greater_than_or_equal_to a, Check.less_than_or_equal_to b,
           Check.isin c] a b hgt (by rfl) (by rfl)
        refine ⟨[("min", a), ("max", b), ("levels", c)], hok,
          dictEqB_vocab _ _ ?_ hkeys ?_ ?_ ?_⟩
        · simp [List.forall_mem_cons]
        · rw [h1]; rfl
        · rw [h2]; rfl
        · rw [h3]; rfl

theorem C1_round_trip_witness :
    ∃ D : Dict,
      parse_checks
        [Check.greater_than_or_equal_to (Value.int 3),
         Check.less_than_or_equal_to (Value.int 7),
         Check.isin (Value.list [Scalar.int 3, Scalar.int 5])] =
        Except.ok (some D) ∧
      dictEqB D [("max", Value.int 7), ("min", Value.int 3),
                 ("levels", Value.list [Scalar.int 3, Scalar.int 5])] = true :=
  C1_round_trip
    [("max", Value.int 7), ("min", Value.int 3),
     ("levels", Value.list [Scalar.int 3, Scalar.int 5])]
    [Check.greater_than_or_equal_to (Value.int 3),
     Check.less_than_or_equal_to (Value.int 7),
     Check.isin (Value.list [Scalar.int 3, Scalar.int 5])]
    (by decide) (by decide) (by rfl)

/-! Absence discipline (C3) and the data-side claims. -/

theorem guard_some_ne_nil {α : Type} (l r : List α)
    (h : (if l.isEmpty then none else some l) = some r) : r ≠ [] := by
  by_cases he : l.isEmpty
  · rw [if_pos he] at h
    exact absurd h (by simp)
  · rw [if_neg he] at h
    injection h with h2
    subst h2
    intro hnil
    rw [hnil] at he
    exact he rfl

theorem parse_checks_ok_shape (checks : List Check) (o : Option Dict)
    (h : parse_checks checks = Except.ok o) :
    o = (if (parse_checks_collect checks).1.isEmpty then none
         else some (parse_checks_collect checks).1) := by
  simp only [parse_checks] at h
  cases hmin : dget (parse_checks_collect checks).1 "min" with
  | none =>
    cases hmax : dget (parse_checks_collect checks).1 "max" <;>
      rw [hmin, hmax] at h <;> simp only at h <;>
      (injection h with h2; exact h2.symm)
  | some mv =>
    cases hmax : dget (parse_checks_collect checks).1 "max" with
    | none =>
      rw [hmin, hmax] at h
      simp only at h
      injection h with h2
      exact h2.symm
    | some xv =>
      rw [hmin, hmax] at h
      simp only at h
      cases hgt : pyGT mv xv with
      | none => rw [hgt] at h; simp at h
      | some bl =>
        rw [hgt] at h
        cases bl with
        | false =>
          simp only at h
          injection h with h2
          exact h2.symm
        | true =>
          simp only at h
          cases hmc : dget (parse_checks_collect checks).2 "min" with
          | none =>
            cases hxc : dget (parse_checks_collect checks).2 "max" <;>
              rw [hmc, hxc] at h <;> simp at h
          | some mc =>
            cases hxc : dget (parse_checks_collect checks).2 "max" <;>
              rw [hmc, hxc] at h <;> simp at h

/-- C3 (amended): every inference/parsing operation returns absence, never
an empty mapping or sequence, when it has nothing to report: array check
statistics, `parse_check_statistics`, `parse_checks`,
`infer_index_statistics`, and the columns mapping of an inferred zero-column
table. (The columns mapping of the schema decomposer is the exception recorded by
the counterexample.) -/
theorem C3_absence_discipline :
    (∀ (x : PdArray) (dtype : PandasDtype) (r : Dict),
      _get_array_check_statistics x dtype = some r → r ≠ []) ∧
    (∀ (s : Option Dict) (r : List Check),
      parse_check_statistics s = some r → r ≠ []) ∧
    (∀ (cks : List Check) (r : Dict),
      parse_checks cks = Except.ok (some r) → r ≠ []) ∧
    (∀ (idx : PdIndex) (r : List StatisticsRecord) (w : List String),
      infer_index_statistics idx = (some r, w) → r ≠ []) ∧
    (∀ df : PdDataFrame, df.columns = [] →
      (infer_dataframe_statistics df).1.columns = none) := by
  refine ⟨?_, ?_, ?_, ?_, ?_⟩
  · intro x dtype r h
    simp only [_get_array_check_statistics] at h
    exact guard_some_ne_nil _ r h
  · intro s r h
    cases s with
    | none => simp [parse_check_statistics] at h
    | some d =>
      simp only [parse_check_statistics] at h
      exact guard_some_ne_nil _ r h
  · intro cks r h
    have h2 := parse_checks_ok_shape cks (some r) h
    exact guard_some_ne_nil _ r h2.symm
  · intro idx r w h
    simp only [infer_index_statistics, Prod.mk.injEq] at h
    exact guard_some_ne_nil _ r h.1
  · intro df h
    simp [infer_dataframe_statistics, h]

theorem C3_absence_discipline_witness :
    (infer_dataframe_statistics
      { columns := [],
        index := PdIndex.index ⟨"int64", [], none, none, none⟩ }).1.columns =
      none :=
  C3_absence_discipline.2.2.2.2
    { columns := [],
      index := PdIndex.index ⟨"int64", [], none, none, none⟩ } rfl

/-- C3 counterexample: the decomposition path breaks the absence
discipline: a schema with zero columns decomposes to an empty columns
mapping, not to `None` — `get_dataframe_schema_statistics` applies no
emptiness guard (its result type cannot even signal absence there). -/
theorem C3_absence_discipline_counterexample :
    get_dataframe_schema_statistics { columns := [], index := none } =
      Except.ok { columns := [], index := none } := rfl

/-- C6: index inference produces one record per level, in level order, for
a multi-level index; a one-element sequence for a recognized single-level
index; and for an unrecognized index type it emits a warning and returns
absence while the surrounding dataframe aggregation still completes with
the same column statistics. -/
theorem C6_infer_index_statistics :
    (∀ levels : List PdArray, levels ≠ [] →
      infer_index_statistics (PdIndex.multi levels) =
        (some (levels.map _index_stats), []) ∧
      ∀ i (h1 : i < (levels.map _index_stats).length) (h2 : i < levels.length),
        (levels.map _index_stats).get ⟨i, h1⟩ =
          _index_stats (levels.get ⟨i, h2⟩)) ∧
    (∀ arr : PdArray,
      infer_index_statistics (PdIndex.index arr) =
        (some [_index_stats arr], [])) ∧
    (∀ tag : String,
      infer_index_statistics (PdIndex.unrecognized tag) =
        (none,
         ["index type " ++ tag ++ " not recognized, skipping index inference"])) ∧
    (∀ (df : PdDataFrame) (tag : String) (arr : PdArray),
      df.index = PdIndex.unrecognized tag →
      (infer_dataframe_statistics df).1.index = none ∧
      (infer_dataframe_statistics df).2 ≠ [] ∧
      (infer_dataframe_statistics df).1.columns =
        (infer_dataframe_statistics
          { columns := df.columns, index := PdIndex.index arr }).1.columns) := by
  refine ⟨?_, ?_, ?_, ?_⟩
  · intro levels hne
    constructor
    · have hfalse : (levels.map _index_stats).isEmpty = false := by
        cases levels with
        | nil => exact absurd rfl hne
        | cons a l => rfl
      simp [infer_index_statistics, hfalse]
    · intro i h1 h2
      simp
  · intro arr; rfl
  · intro tag; rfl
  · intro df tag arr h
    refine ⟨?_, ?_, ?_⟩ <;>
      simp [infer_dataframe_statistics, infer_index_statistics, h]

theorem C6_infer_index_statistics_witness :
    infer_index_statistics
        (PdIndex.multi [⟨"int64", [Cell.int 1], some "a", none, none⟩,
                        ⟨"category", [Cell.str "x"], some "b",
                         some [Scalar.str "x"], none⟩]) =
      (some [_index_stats ⟨"int64", [Cell.int 1], some "a", none, none⟩,
             _index_stats ⟨"category", [Cell.str "x"], some "b",
                           some [Scalar.str "x"], none⟩], []) ∧
    (infer_dataframe_statistics
      { columns := [], index := PdIndex.unrecognized "FrozenList" }).1.index =
      none :=
  ⟨(C6_infer_index_statistics.1 _ (List.cons_ne_nil _ _)).1,
   (C6_infer_index_statistics.2.2.2
     { columns := [], index := PdIndex.unrecognized "FrozenList" }
     "FrozenList" ⟨"int64", [], none, none, none⟩ rfl).1⟩

/-- C7: for a categorical-typed array, statistic extraction returns the
declared category set — from the categorical accessor of the array when it
is present, else from the category labels of the values — independently of the
values actually present in the array. -/
theorem C7_categorical_levels :
    (∀ (x : PdArray) (cs : List Scalar), x.cat_categories = some cs →
      _get_array_check_statistics x PandasDtype.Category =
        some [("levels", Value.list cs)]) ∧
    (∀ (x : PdArray) (cs : List Scalar), x.cat_categories = none →
      x.categories = some cs →
      _get_array_check_statistics x PandasDtype.Category =
        some [("levels", Value.list cs)]) := by
  constructor
  · intro x cs h
    simp [_get_array_check_statistics, NUMERIC_DTYPES, categoriesOf, h]
  · intro x cs h1 h2
    simp [_get_array_check_statistics, NUMERIC_DTYPES, categoriesOf, h1, h2]

theorem C7_categorical_levels_witness :
    _get_array_check_statistics
        ⟨"category", [Cell.str "a", Cell.str "b"], some "col",
         some [Scalar.str "a", Scalar.str "b", Scalar.str "c"], none⟩
        PandasDtype.Category =
      some [("levels",
        Value.list [Scalar.str "a", Scalar.str "b", Scalar.str "c"])] :=
  C7_categorical_levels.1
    ⟨"category", [Cell.str "a", Cell.str "b"], some "col",
     some [Scalar.str "a", Scalar.str "b", Scalar.str "c"], none⟩
    [Scalar.str "a", Scalar.str "b", Scalar.str "c"] rfl

/-- C8: type resolution is two-stage: the declared storage type resolves by
alias lookup, and only when the result is the generic `Object` tag does
content inspection (skipping missing entries) re-resolve it; in particular
an object-typed array with uniformly integer-like content resolves to the
integer type. -/
theorem C8_type_resolution :
    (∀ x : PdArray, PandasDtype.from_str_alias x.dtype ≠ PandasDtype.Object →
      _get_array_type x = PandasDtype.from_str_alias x.dtype) ∧
    (∀ x : PdArray, PandasDtype.from_str_alias x.dtype = PandasDtype.Object →
      _get_array_type x =
        PandasDtype.from_pandas_api_type (pd_infer_dtype x.values)) ∧
    (∀ x : PdArray, x.dtype = "object" →
      (∃ c ∈ x.values, c ≠ Cell.na) →
      (∀ c ∈ x.values, c ≠ Cell.na → ∃ n : Int, c = Cell.int n) →
      _get_array_type x = PandasDtype.Int) := by
  refine ⟨?_, ?_, ?_⟩
  · intro x h
    simp [_get_array_type, h]
  · intro x h
    simp [_get_array_type, h]
  · intro x hdt hex hall
    have h1 : PandasDtype.from_str_alias x.dtype = PandasDtype.Object := by
      rw [hdt]; rfl
    have hint : pd_infer_dtype x.values = "integer" := by
      obtain ⟨c0, hc0m, hc0⟩ := hex
      have hc0f : c0 ∈ x.values.filter (fun c => !cellIsNa c) := by
        rw [List.mem_filter]
        refine ⟨hc0m, ?_⟩
        cases c0 with
        | na => exact absurd rfl hc0
        | int n => rfl
        | str s => rfl
        | bool b => rfl
      have hne : (x.values.filter (fun c => !cellIsNa c)).isEmpty = false := by
        cases hvs : x.values.filter (fun c => !cellIsNa c) with
        | nil => rw [hvs] at hc0f; simp at hc0f
        | cons a l => rfl
      have hints : (x.values.filter (fun c => !cellIsNa c)).all cellIsInt
          = true := by
        rw [List.all_eq_true]
        intro c hc
        have hcm := List.mem_filter.mp hc
        have hcna : c ≠ Cell.na := by
          intro hna
          rw [hna] at hcm
          simp [cellIsNa] at hcm
        obtain ⟨n, rfl⟩ := hall c hcm.1 hcna
        rfl
      simp [pd_infer_dtype, hne, hints]
    simp [_get_array_type, h1, hint, PandasDtype.from_pandas_api_type]

theorem C8_type_resolution_witness :
    _get_array_type
        ⟨"object", [Cell.int 1, Cell.na, Cell.int 2], none, none, none⟩ =
      PandasDtype.Int := by
  refine C8_type_resolution.2.2
    ⟨"object", [Cell.int 1, Cell.na, Cell.int 2], none, none, none⟩ rfl
    ⟨Cell.int 1, by simp, by simp⟩ ?_
  intro c hc hcne
  fin_cases hc
  · exact ⟨1, rfl⟩
  · exact absurd rfl hcne
  · exact ⟨2, rfl⟩

end SchemaStatistics
